import Mathlib

/-!
Verification development for the GoDirect protocol engine
(`godirect/device.py`, `godirect/sensor.py`).

The Python code is shallowly embedded: bytes are natural numbers below 256,
Python `int` arithmetic is `Int` (Python's `& 0xFF` on a possibly negative
value is Euclidean `% 256`), command frames are `List Int`, registries of
sensors are ordered lists mirroring Python's insertion-ordered dict, and a
Python exception (KeyError, NameError, struct.error) is `none` of an
`Option`-valued result.  Real32 samples are modeled by their little-endian
32-bit pattern; the claims under study only concern sample counts, order
and destinations, never float semantics.
-/

namespace GoDirect

/-- Inbound byte buffers (each element is one byte, 0..255 where relevant). -/
abbrev Bytes := List Nat

/-- Embedding of `GoDirectSensor` (sensor.py): the fields relevant to the
protocol engine.  `values` is the append-only sample log. -/
structure GoDirectSensor where
  sensor_number : Nat
  mutual_exclusion_mask : Nat
  typ_measurement_period : Nat
  enabled : Bool
  values : List Int
  deriving DecidableEq, Repr

/-- The per-device sensor map `self._sensors`.  Python's dict is insertion
ordered with unique keys; we keep the same order in a list and look keys up
by the `sensor_number` field (the code always stores a sensor under its own
number, device.py line 556). -/
abbrev Registry := List GoDirectSensor

/-- Dictionary access `self._sensors[n]`: first (unique) entry keyed `n`;
`none` is Python's KeyError. -/
def lookupSensor (reg : Registry) (n : Nat) : Option GoDirectSensor :=
  reg.find? (fun s => s.sensor_number == n)

/-- Sample log of sensor `n` (empty if the sensor is absent). -/
def values_of (reg : Registry) (n : Nat) : List Int :=
  match lookupSensor reg n with
  | some s => s.values
  | none => []

/-! ## Packet codec: checksum and rolling counter (device.py 305-324) -/

/-- `_GDX_calculate_checksum`: length is byte 1, the accumulator starts at
minus byte 3 and adds bytes `0..length-1`, reduced `& 0xFF` at each step;
an out-of-range result is logged and `0` is returned.  The Python loop
indexes `buff[0..length-1]`; every caller passes `length = len(buff)`,
which `List.take length` reproduces. -/
def GDX_calculate_checksum (buff : List Int) : Int :=
  let length := (buff.getD 1 0).toNat
  let start : Int := -1 * buff.getD 3 0
  let checksum := (buff.take length).foldl (fun c b => (c + b) % 256) start
  if checksum < 0 ∨ checksum > 255 then 0 else checksum

/-- `_GDX_dec_rolling_counter`: decrement, rolling `-1` over to `0xFF`. -/
def GDX_dec_rolling_counter (c : Int) : Int :=
  let c2 := c - 1
  if c2 == -1 then 255 else c2

/-- The header population shared by every command builder (e.g. device.py
612-617): byte 1 := total length, byte 2 := decremented rolling counter,
byte 3 := checksum of the frame so far.  Returns the finished frame and the
new counter value. -/
def GDX_build_frame (command : List Int) (counter : Int) : List Int × Int :=
  let counter2 := GDX_dec_rolling_counter counter
  let cmd := (command.set 1 (command.length : Int)).set 2 counter2
  (cmd.set 3 (GDX_calculate_checksum cmd), counter2)

/-- `self._rolling_counter = 0xFF` performed by `_GDX_init` (device.py 466)
before the init frame is built. -/
def GDX_init_reset_counter (_c : Int) : Int := 255

/-- `n` consecutive applications of the rolling-counter decrement. -/
def iterate_dec : Nat → Int → Int
  | 0, c => c
  | n + 1, c => iterate_dec n (GDX_dec_rolling_counter c)

/-! ## Sensor registry and mutual exclusion (device.py 217-291, sensor.py 35-49) -/

/-- `GoDirectSensor._check_mutual_exclusion_mask`: `True` when `sensor_number`
may stay enabled next to `self` (it is `self` itself, or its bit is absent
from `self`'s mutual-exclusion mask). -/
def GoDirectSensor.check_mutual_exclusion_mask (self : GoDirectSensor)
    (sensor_number : Nat) : Bool :=
  if sensor_number == self.sensor_number then true
  else
    let mask := 1 <<< sensor_number
    if mask &&& self.mutual_exclusion_mask == mask then false else true

/-- `get_enabled_sensors`: the enabled sensors in registry (dict) order. -/
def get_enabled_sensors (reg : Registry) : Registry :=
  reg.filter (fun s => s.enabled)

/-- `get_default_period`: typical period of the first enabled sensor, 0 if none. -/
def get_default_period (reg : Registry) : Nat :=
  match reg.find? (fun s => s.enabled) with
  | some s => s.typ_measurement_period
  | none => 0

/-- `sensor2.enabled = False` inside `_check_mutual_exclusion_masks`:
Python mutates the unique object numbered `n`. -/
def disable_sensor (reg : Registry) (n : Nat) : Registry :=
  reg.map (fun s => if s.sensor_number == n then { s with enabled := false } else s)

/-- `_check_mutual_exclusion_masks`: a snapshot of the enabled sensors is
taken once, then every ordered pair of the snapshot is checked; each failed
check disables `sensor2` in the (evolving) registry.  The snapshot — not the
current enabled state — drives both loops, exactly as the two `for` loops
over `enabled_sensors` do. -/
def check_mutual_exclusion_masks (reg : Registry) : Registry :=
  let enabled_sensors := get_enabled_sensors reg
  enabled_sensors.foldl (fun acc sensor =>
    enabled_sensors.foldl (fun acc2 sensor2 =>
      if sensor.check_mutual_exclusion_mask sensor2.sensor_number then acc2
      else disable_sensor acc2 sensor2.sensor_number) acc) reg

/-- One step of `enable_sensors`: `_GDX_get_sensor_info(i)` re-creates the
descriptor under its key (same capability fields from the device, fresh empty
sample log, `enabled` initially false) and then `enabled` is set to `True`.
Net effect on the registry entry numbered `n`: `enabled := true`,
`values := []`; absent sensor numbers are outside the claims studied here. -/
def enable_one_sensor (reg : Registry) (n : Nat) : Registry :=
  reg.map (fun s =>
    if s.sensor_number == n then { s with enabled := true, values := [] } else s)

/-- `enable_sensors`: enable each requested number, then run the mutual
exclusion pass. -/
def enable_sensors (reg : Registry) (ns : List Nat) : Registry :=
  check_mutual_exclusion_masks (ns.foldl enable_one_sensor reg)

/-- `_get_sensor_mask`: OR of `1 << sensor_number` over the enabled sensors. -/
def get_sensor_mask (reg : Registry) : Nat :=
  reg.foldl (fun m s => if s.enabled then m + (1 <<< s.sensor_number) else m) 0

/-! ## Default sensor selection (device.py 115-138) -/

/-- The `for i in range(0,32)` scan of `enable_default_sensors`, started at
`i`: first bit position set in both masks, `none` when the range is
exhausted without a break. -/
def find_default_sensor_from (availableMask defaultMask : Nat) (i : Nat) :
    Option Nat :=
  if h : i < 32 then
    if (1 <<< i) &&& defaultMask &&& availableMask ≠ 0 then some i
    else find_default_sensor_from availableMask defaultMask (i + 1)
  else none
  termination_by 32 - i

/-- Observable outcomes of `enable_default_sensors`:  an explicit
`return False`, a normal return with the updated registry, or the `NameError`
raised when the never-assigned local `sensorNumbers` is read. -/
inductive EnableDefaultOutcome where
  | returnedFalse : EnableDefaultOutcome
  | ok : Registry → EnableDefaultOutcome
  | nameError : EnableDefaultOutcome
  deriving DecidableEq, Repr

/-- `enable_default_sensors`, with the two mask query replies supplied as
arguments (`_GDX_get_available_sensors` / `_GDX_get_default_sensors` return
`False`, i.e. falsy, on failure — a zero mask is equally falsy, hence the
first guard).  After a run of the scan loop with no break, Python leaves the
loop variable `i` at its last value 31, so the `if i == 32` guard cannot
fire and the subsequent `for i in sensorNumbers` reads an unassigned local,
raising `NameError`. -/
def enable_default_sensors (reg : Registry) (availableMask defaultMask : Nat) :
    EnableDefaultOutcome :=
  if availableMask == 0 || defaultMask == 0 then .returnedFalse
  else
    let found := find_default_sensor_from availableMask defaultMask 0
    let i := match found with
      | some j => j
      | none => 31
    if i == 32 then .returnedFalse
    else
      match found with
      | some j => .ok (enable_sensors reg [j])
      | none => .nameError

/-! ## Measurement decoding (device.py 267-274, 403-449) -/

/-- The ascending key scan of `_get_sensors_with_mask`: the `i` in
`range(0,32)` whose bit is set in the mask. -/
def mask_bit_numbers (sensor_mask : Nat) : List Nat :=
  (List.range 32).filter (fun i => (1 <<< i) &&& sensor_mask == 1 <<< i)

/-- The dict build `sensors[i] = self._sensors[i]` over the mask's bits:
`none` is the KeyError raised on a sensor number absent from the registry. -/
def lookup_all (reg : Registry) : List Nat → Option (List GoDirectSensor)
  | [] => some []
  | i :: rest =>
    match lookupSensor reg i with
    | none => none
    | some s =>
      match lookup_all reg rest with
      | none => none
      | some ss => some (s :: ss)

/-- `_get_sensors_with_mask`: resolve every set bit of the mask, ascending. -/
def get_sensors_with_mask (reg : Registry) (sensor_mask : Nat) :
    Option (List GoDirectSensor) :=
  lookup_all reg (mask_bit_numbers sensor_mask)

/-- `struct.unpack("<b", ...)`: a byte read as a signed 8-bit value. -/
def sbyte (b : Nat) : Int :=
  if b < 128 then (b : Int) else (b : Int) - 256

/-- `struct.unpack("<H", ...)`: two bytes, little endian. -/
def le16 (b0 b1 : Nat) : Nat := b0 + 256 * b1

/-- The 32-bit little-endian word starting at `idx`. -/
def sample_word (r : Bytes) (idx : Nat) : Nat :=
  r.getD idx 0 + 256 * r.getD (idx + 1) 0 + 65536 * r.getD (idx + 2) 0 +
    16777216 * r.getD (idx + 3) 0

/-- One decoded sample: `struct.unpack(format_str, response[index:index+4])`.
`"<i"` yields the signed value; `"<f"` is represented by the raw bit
pattern (a bijective image of the float payload). -/
def decode_sample (format_is_int : Bool) (r : Bytes) (idx : Nat) : Int :=
  let w := sample_word r idx
  if format_is_int then (if w < 2147483648 then (w : Int) else (w : Int) - 4294967296)
  else (w : Int)

/-- The same read, failing (`struct.error`) when fewer than 4 bytes remain. -/
def sample_at (format_is_int : Bool) (r : Bytes) (idx : Nat) : Option Int :=
  if idx + 4 ≤ r.length then some (decode_sample format_is_int r idx) else none

/-- `sensors[i].values.append(measurement)` on the unique entry numbered `n`. -/
def append_sample (reg : Registry) (n : Nat) (v : Int) : Registry :=
  reg.map (fun s =>
    if s.sensor_number == n then { s with values := s.values ++ [v] } else s)

/-- The inner `for i in sensors` loop of `_GDX_handle_measurement`: one
sample appended to each resolved sensor in ascending order, the read cursor
advancing 4 bytes per sample. -/
def append_round (format_is_int : Bool) (r : Bytes) :
    List GoDirectSensor → Registry → Nat → Option (Registry × Nat)
  | [], reg, index => some (reg, index)
  | s :: rest, reg, index =>
    match sample_at format_is_int r index with
    | none => none
    | some v =>
      append_round format_is_int r rest (append_sample reg s.sensor_number v) (index + 4)

/-- The outer `while count < value_count` loop: `value_count` rounds (a
non-positive signed count runs zero rounds, as the `while` guard does). -/
def distribute_samples (format_is_int : Bool) (r : Bytes)
    (sel : List GoDirectSensor) : Nat → Registry → Nat → Option Registry
  | 0, reg, _ => some reg
  | n + 1, reg, index =>
    match append_round format_is_int r sel reg index with
    | none => none
    | some (reg2, index2) => distribute_samples format_is_int r sel n reg2 index2

/-- `_GDX_handle_measurement`: dispatch on the sub-type byte `response[4]`.
`none` models a propagated Python exception (short `struct.unpack` slice,
KeyError, or IndexError); `some (false, reg)` is the `return False` of an
unknown type; `some (true, reg2)` a completed decode.  For wide-real32 the
code unpacks `"<HH"` from bytes 5..8 but keeps `[0]`, the low word, only.
In the single-channel branches the source assigns `sensors[0]` while
`sensors` is still the empty LIST `[]` initialized at the top of the
function, so after the byte reads and the dict lookup (KeyError first if
the number is absent) the assignment always raises IndexError: these
branches never complete. -/
def GDX_handle_measurement (response : Bytes) (reg : Registry) :
    Option (Bool × Registry) := do
  let mt ← response.get? 4
  if mt == 0x06 then
    let b5 ← response.get? 5
    let b6 ← response.get? 6
    let vcb ← response.get? 7
    let sel ← get_sensors_with_mask reg (le16 b5 b6)
    let reg2 ← distribute_samples false response sel (sbyte vcb).toNat reg 9
    some (true, reg2)
  else if mt == 0x07 then
    let b5 ← response.get? 5
    let b6 ← response.get? 6
    let _b7 ← response.get? 7
    let _b8 ← response.get? 8
    let vcb ← response.get? 9
    let sel ← get_sensors_with_mask reg (le16 b5 b6)
    let reg2 ← distribute_samples false response sel (sbyte vcb).toNat reg 11
    some (true, reg2)
  else if mt == 0x08 || mt == 0x0a then
    let b6 ← response.get? 6
    let _vcb ← response.get? 7
    if sbyte b6 < 0 then none
    else
      let _s ← lookupSensor reg (sbyte b6).toNat
      none
  else if mt == 0x09 || mt == 0x0b then
    let b6 ← response.get? 6
    let _vcb ← response.get? 7
    if sbyte b6 < 0 then none
    else
      let _s ← lookupSensor reg (sbyte b6).toNat
      none
  else
    some (false, reg)

/-! ## Response dispatcher (device.py 340-401)

The transport is abstracted as a list of events `(elapsed, response)`:
`elapsed` is the total wall-clock time in milliseconds since the write,
sampled at the top of the iteration that consumes the event (the code's
`(time.time() - start_time) * 1000` with `start_time` fixed at entry), and
`response` is what `_GDX_read_blocking` then returns.  An exhausted event
list stands for a transport that produces nothing further until the budget
drains, which the loop answers with its timeout result. -/

/-- Return values of `_GDX_write_and_get_response`: `False` on write
failure, `None` on timeout, or the reply bytes. -/
inductive GetResponseOutcome where
  | returnedFalse : GetResponseOutcome
  | returnedNone : GetResponseOutcome
  | reply : Bytes → GetResponseOutcome
  deriving DecidableEq, Repr

/-- The wait loop of `_GDX_write_and_get_response`.  Each iteration first
subtracts the elapsed-since-write reading from the budget, returns `None`
when the result drops below 1, skips frames shorter than 2 bytes, routes
streaming frames (tag 0x20) to the measurement handler and keeps waiting,
and returns any other frame.  The final component is the remaining budget;
outer `none` is a propagated decode exception. -/
def GDX_write_and_get_response_loop :
    Registry → Int → List (Int × Bytes) → Option (GetResponseOutcome × Registry × Int)
  | reg, budget, [] => some (.returnedNone, reg, budget)
  | reg, budget, (elapsed, response) :: rest =>
    let b := budget - elapsed
    if b < 1 then some (.returnedNone, reg, b)
    else if response.length < 2 then GDX_write_and_get_response_loop reg b rest
    else if response.getD 0 0 == 0x20 then
      match GDX_handle_measurement response reg with
      | none => none
      | some (_, reg2) => GDX_write_and_get_response_loop reg2 b rest
    else some (.reply response, reg, b)

/-- `_GDX_write_and_get_response`: a failed write returns `False` at once,
otherwise the 5000 ms wait loop runs. -/
def GDX_write_and_get_response (writeOk : Bool) (reg : Registry)
    (events : List (Int × Bytes)) : Option (GetResponseOutcome × Registry × Int) :=
  if writeOk then GDX_write_and_get_response_loop reg 5000 events
  else some (.returnedFalse, reg, 5000)

/-- The wait loop of `_GDX_write_and_check_response`: identical accounting,
but any non-measurement frame acknowledges with `True` and timeout yields
`False`. -/
def GDX_write_and_check_response_loop :
    Registry → Int → List (Int × Bytes) → Option (Bool × Registry × Int)
  | reg, budget, [] => some (false, reg, budget)
  | reg, budget, (elapsed, response) :: rest =>
    let b := budget - elapsed
    if b < 1 then some (false, reg, b)
    else if response.length < 2 then GDX_write_and_check_response_loop reg b rest
    else if response.getD 0 0 == 0x20 then
      match GDX_handle_measurement response reg with
      | none => none
      | some (_, reg2) => GDX_write_and_check_response_loop reg2 b rest
    else some (true, reg, b)

/-- `_GDX_write_and_check_response`: write failure returns `False`. -/
def GDX_write_and_check_response (writeOk : Bool) (reg : Registry)
    (events : List (Int × Bytes)) : Option (Bool × Registry × Int) :=
  if writeOk then GDX_write_and_check_response_loop reg 5000 events
  else some (false, reg, 5000)

/-- `_GDX_read_measurement`: same budget accounting; frames shorter than 5
bytes, frames whose first byte is not the streaming tag 0x20, and streaming
frames of sub-type start-time (0x0c), dropped (0x0d) or period (0x0e) are
consumed and skipped; the first remaining frame is handed to the
measurement handler and its result returned; a drained budget returns
`False`. -/
def GDX_read_measurement_loop :
    Registry → Int → List (Int × Bytes) → Option (Bool × Registry)
  | reg, _, [] => some (false, reg)
  | reg, budget, (elapsed, response) :: rest =>
    let b := budget - elapsed
    if b < 1 then some (false, reg)
    else if response.length < 5 then GDX_read_measurement_loop reg b rest
    else if response.getD 0 0 != 0x20 then GDX_read_measurement_loop reg b rest
    else if response.getD 4 0 == 0x0c || response.getD 4 0 == 0x0d ||
        response.getD 4 0 == 0x0e then
      GDX_read_measurement_loop reg b rest
    else GDX_handle_measurement response reg

/-- `_GDX_read_measurement` with a caller-supplied timeout budget. -/
def GDX_read_measurement (reg : Registry) (timeout : Int)
    (events : List (Int × Bytes)) : Option (Bool × Registry) :=
  GDX_read_measurement_loop reg timeout events

/-- A frame the `_GDX_read_measurement` loop consumes without surfacing. -/
def skippable_frame (r : Bytes) : Bool :=
  decide (r.length < 5) || r.getD 0 0 != 0x20 ||
    (r.getD 4 0 == 0x0c || r.getD 4 0 == 0x0d || r.getD 4 0 == 0x0e)

/-! ## Device session and `start` (device.py 141-170, 475-495, 575-594) -/

/-- The session state touched by `start`: the rolling counter, the
configured sampling period, and the sensor registry. -/
structure Session where
  rolling_counter : Int
  sample_period_in_milliseconds : Nat
  sensors : Registry
  deriving DecidableEq, Repr

/-- `self._sensors[i].clear()` over the whole registry. -/
def clear_all (reg : Registry) : Registry :=
  reg.map (fun s => { s with values := [] })

/-- The `_GDX_set_measurement_period` command template with the period
payload (microseconds, 4 little-endian bytes at offsets 7..10). -/
def GDX_set_measurement_period_cmd (measurementPeriodInMilliseconds : Nat) :
    List Int :=
  let us := measurementPeriodInMilliseconds * 1000
  let command : List Int := [0x58, 0, 0, 0, 0x1B, 0xFF, 0, 0, 0, 0, 0, 0, 0, 0, 0]
  ((((command.set 7 (((us >>> 0) &&& 0xFF : Nat) : Int)).set 8
      (((us >>> 8) &&& 0xFF : Nat) : Int)).set 9
      (((us >>> 16) &&& 0xFF : Nat) : Int)).set 10
      (((us >>> 24) &&& 0xFF : Nat) : Int))

/-- The `_GDX_start_measurements` command template with the sensor mask
payload (4 little-endian bytes at offsets 7..10). -/
def GDX_start_measurements_cmd (sensor_mask : Nat) : List Int :=
  let command : List Int :=
    [0x58, 0, 0, 0, 0x18, 0xFF, 0x01, 0, 0, 0, 0, 0, 0, 0, 0, 0, 0, 0, 0]
  ((((command.set 7 (((sensor_mask >>> 0) &&& 0xFF : Nat) : Int)).set 8
      (((sensor_mask >>> 8) &&& 0xFF : Nat) : Int)).set 9
      (((sensor_mask >>> 16) &&& 0xFF : Nat) : Int)).set 10
      (((sensor_mask >>> 24) &&& 0xFF : Nat) : Int))

/-- `_GDX_set_measurement_period`: builds the frame (decrementing the
rolling counter) and runs the full `_GDX_write_and_check_response`
exchange on it — so interleaved streaming frames are routed to the
measurement handler (possibly appending samples to the registry) and a
decode exception propagates (`none`).  `writeOk` is the transport write
result, `events` the inbound traffic during the wait loop. -/
def GDX_set_measurement_period (s : Session) (writeOk : Bool)
    (events : List (Int × Bytes)) : Option (Bool × Session) :=
  let built := GDX_build_frame
    (GDX_set_measurement_period_cmd s.sample_period_in_milliseconds) s.rolling_counter
  (GDX_write_and_check_response writeOk s.sensors events).map
    (fun res => (res.1, { s with rolling_counter := built.2, sensors := res.2.1 }))

/-- `_GDX_start_measurements`: frame build (counter decrement) plus the
same full check-response exchange. -/
def GDX_start_measurements (s : Session) (sensor_mask : Nat) (writeOk : Bool)
    (events : List (Int × Bytes)) : Option (Bool × Session) :=
  let built := GDX_build_frame (GDX_start_measurements_cmd sensor_mask) s.rolling_counter
  (GDX_write_and_check_response writeOk s.sensors events).map
    (fun res => (res.1, { s with rolling_counter := built.2, sensors := res.2.1 }))

/-- `start`: enable defaults when nothing is enabled (`availableMask` /
`defaultMask` are the device's two mask query replies; a `NameError` from
that path propagates as `none`), resolve the period (the typical period of
the first enabled sensor floored at 100 ms when none is given), store it,
clear every sample log, then run the two exchanges through the dispatcher
(`setWriteOk`/`setEvents` and `startWriteOk`/`startEvents` model each
exchange's transport write result and inbound traffic); the first failure
returns `False`, and an exception inside an exchange propagates.  Note the
period store and the log clearing precede both exchanges, while streaming
frames interleaved into the exchanges mutate the registry afterwards. -/
def start (s : Session) (period? : Option Nat) (availableMask defaultMask : Nat)
    (setWriteOk : Bool) (setEvents : List (Int × Bytes))
    (startWriteOk : Bool) (startEvents : List (Int × Bytes)) :
    Option (Bool × Session) := do
  let s1 ←
    if (get_enabled_sensors s.sensors).length == 0 then
      match enable_default_sensors s.sensors availableMask defaultMask with
      | .nameError => none
      | .returnedFalse => some s
      | .ok reg => some { s with sensors := reg }
    else some s
  let period :=
    match period? with
    | some p => p
    | none =>
      let p := get_default_period s1.sensors
      if p < 100 then 100 else p
  let s2 := { s1 with sample_period_in_milliseconds := period }
  let s3 := { s2 with sensors := clear_all s2.sensors }
  let (ok1, s4) ← GDX_set_measurement_period s3 setWriteOk setEvents
  if ok1 = false then some (false, s4)
  else do
    let (ok2, s5) ← GDX_start_measurements s4 (get_sensor_mask s4.sensors)
      startWriteOk startEvents
    if ok2 = false then some (false, s5)
    else some (true, s5)

/-! ## Helper lemmas about lists and modular folds -/

/-- A nonempty stepwise `(· + ·) % 256` fold collapses to one modulus. -/
theorem foldl_add_emod (l : List Int) (a : Int) (h : l ≠ []) :
    l.foldl (fun c b => (c + b) % 256) a = (a + l.sum) % 256 := by
  induction l generalizing a with
  | nil => exact absurd rfl h
  | cons x t ih =>
    cases t with
    | nil => simp [List.foldl, List.sum]
    | cons y u =>
      rw [List.foldl_cons, ih _ (by simp)]
      have hsum : (x :: y :: u).sum = x + (y :: u).sum := by simp
      rw [hsum]
      omega

/-- Sum of a list after updating one in-range position. -/
theorem sum_set (l : List Int) (i : Nat) (v : Int) (h : i < l.length) :
    (l.set i v).sum = l.sum - l.getD i 0 + v := by
  induction l generalizing i with
  | nil => simp at h
  | cons x t ih =>
    cases i with
    | zero => simp [List.set, List.getD]; ring
    | succ j =>
      have hj : j < t.length := by simpa using h
      simp only [List.set, List.sum_cons, List.getD_cons_succ, ih j hj]
      ring

/-- `getD` at an untouched position after `set`. -/
theorem getD_set_ne (l : List Int) (i j : Nat) (v : Int) (h : i ≠ j) :
    (l.set i v).getD j 0 = l.getD j 0 := by
  induction l generalizing i j with
  | nil => simp [List.set]
  | cons x t ih =>
    cases i with
    | zero =>
      cases j with
      | zero => exact absurd rfl h
      | succ j2 => simp [List.set]
    | succ i2 =>
      cases j with
      | zero => simp [List.set]
      | succ j2 =>
        simp only [List.set, List.getD_cons_succ]
        exact ih i2 j2 (by omega)

/-- `getD` at the updated position after an in-range `set`. -/
theorem getD_set_self (l : List Int) (i : Nat) (v : Int) (h : i < l.length) :
    (l.set i v).getD i 0 = v := by
  induction l generalizing i with
  | nil => simp at h
  | cons x t ih =>
    cases i with
    | zero => simp [List.set]
    | succ j =>
      have hj : j < t.length := by simpa using h
      simp only [List.set, List.getD_cons_succ]
      exact ih j hj


/-- Evaluation of the checksum on a frame whose length byte equals its true
length: one modular sum, the out-of-range guard never firing. -/
theorem calc_checksum_eval (buff : List Int) (hb : buff ≠ [])
    (hlen : buff.getD 1 0 = (buff.length : Int)) :
    GDX_calculate_checksum buff = (-(buff.getD 3 0) + buff.sum) % 256 := by
  unfold GDX_calculate_checksum
  rw [hlen]
  simp only [Int.toNat_natCast]
  rw [List.take_length, foldl_add_emod _ _ hb]
  have h0 : (0 : Int) ≤ (-1 * buff.getD 3 0 + buff.sum) % 256 :=
    Int.emod_nonneg _ (by norm_num)
  have h1 : (-1 * buff.getD 3 0 + buff.sum) % 256 < 256 :=
    Int.emod_lt_of_pos _ (by norm_num)
  rw [if_neg (by omega)]
  ring_nf

/-- Claim C2: checksum round-trip.  For every command frame produced by a
builder (byte 1 the total length, byte 2 the sequence, byte 3 the checksum
written by `_GDX_calculate_checksum`), re-running the same checksum
computation over the finished frame (negate byte 3, then sum bytes
`0..length-1` modulo 256) reproduces exactly the stored checksum byte.
Every builder template has length at least 5 (opcode at byte 4). -/
theorem checksum_roundtrip (command : List Int) (counter : Int)
    (h : 5 ≤ command.length) :
    GDX_calculate_checksum (GDX_build_frame command counter).1 =
      (GDX_build_frame command counter).1.getD 3 0 := by
  have hlen1 : 1 < command.length := by omega
  have hcmd2len : ((command.set 1 (command.length : Int)).set 2
      (GDX_dec_rolling_counter counter)).length = command.length := by
    simp
  have hb1 : ((command.set 1 (command.length : Int)).set 2
      (GDX_dec_rolling_counter counter)).getD 1 0 = (command.length : Int) := by
    rw [getD_set_ne _ 2 1 _ (by omega), getD_set_self _ 1 _ hlen1]
  have hne2 : ((command.set 1 (command.length : Int)).set 2
      (GDX_dec_rolling_counter counter)) ≠ [] := by
    intro hh
    rw [hh] at hcmd2len
    simp at hcmd2len
    omega
  have heval1 := calc_checksum_eval _ hne2 (by rw [hb1, hcmd2len])
  have hframe : (GDX_build_frame command counter).1 =
      ((command.set 1 (command.length : Int)).set 2
        (GDX_dec_rolling_counter counter)).set 3
        (GDX_calculate_checksum ((command.set 1 (command.length : Int)).set 2
          (GDX_dec_rolling_counter counter))) := rfl
  rw [hframe]
  generalize hcmd2 : (command.set 1 (command.length : Int)).set 2
      (GDX_dec_rolling_counter counter) = cmd2 at *
  generalize hchk : GDX_calculate_checksum cmd2 = chk at *
  have h3lt : 3 < cmd2.length := by omega
  have hlenf : (cmd2.set 3 chk).length = command.length := by
    rw [List.length_set, hcmd2len]
  have hnef : cmd2.set 3 chk ≠ [] := by
    intro hh
    rw [hh] at hlenf
    simp at hlenf
    omega
  have hf1 : (cmd2.set 3 chk).getD 1 0 = (command.length : Int) := by
    rw [getD_set_ne _ 3 1 _ (by omega)]
    exact hb1
  have hf3 : (cmd2.set 3 chk).getD 3 0 = chk := getD_set_self _ 3 _ h3lt
  have hsum : (cmd2.set 3 chk).sum = cmd2.sum - cmd2.getD 3 0 + chk :=
    sum_set _ 3 _ h3lt
  have heval2 := calc_checksum_eval _ hnef (by rw [hf1, hlenf])
  rw [heval2, hf3, hsum]
  have harith : -chk + (cmd2.sum - cmd2.getD 3 0 + chk) =
      -(cmd2.getD 3 0) + cmd2.sum := by ring
  rw [harith, ← heval1]

/-- Witness for C2 at the `_GDX_get_status` template with counter 0: the
finished frame and the reproduced checksum byte, evaluated concretely. -/
theorem checksum_roundtrip_witness :
    GDX_calculate_checksum (GDX_build_frame [0x58, 0, 0, 0, 0x10] 0).1 =
      (GDX_build_frame [0x58, 0, 0, 0, 0x10] 0).1.getD 3 0 ∧
    (GDX_build_frame [0x58, 0, 0, 0, 0x10] 0).1 = [0x58, 5, 255, 108, 0x10] :=
  ⟨checksum_roundtrip [0x58, 0, 0, 0, 0x10] 0 (by decide), by decide⟩

/-- Unfolding the iteration from the outside. -/
theorem iterate_dec_succ (n : Nat) (c : Int) :
    iterate_dec (n + 1) c = GDX_dec_rolling_counter (iterate_dec n c) := by
  induction n generalizing c with
  | zero => rfl
  | succ m ih =>
    show iterate_dec (m + 1) (GDX_dec_rolling_counter c) = _
    rw [ih]
    rfl

/-- The counter counts 255, 254, …, 255 − k without wrapping for k ≤ 255. -/
theorem iterate_dec_countdown (k : Nat) (h : k ≤ 255) :
    iterate_dec k 255 = 255 - (k : Int) := by
  induction k with
  | zero => rfl
  | succ m ih =>
    have hm : (m : Int) ≤ 254 := by exact_mod_cast (by omega : m ≤ 254)
    rw [iterate_dec_succ, ih (by omega)]
    simp only [GDX_dec_rolling_counter, beq_iff_eq]
    rw [if_neg (by omega)]
    push_cast
    ring

/-- Claim C5: the rolling sequence counter starts at 255 (and the init
command resets it to 255 before building its frame), each frame build
decrements it exactly once (the frame's second return component is the
single decrement of the incoming counter), it never becomes negative (0
wraps to 255, and any value in 0..255 steps to a value in 0..255), counting
down 255, 254, …, 255 − k for k ≤ 255, and after 256 consecutive builds it
has wrapped exactly once and returned to 255. -/
theorem rolling_counter_claim :
    (∀ c : Int, GDX_init_reset_counter c = 255) ∧
    (∀ k : Nat, k ≤ 255 → iterate_dec k 255 = 255 - (k : Int)) ∧
    iterate_dec 256 255 = 255 ∧
    (∀ c : Int, 0 ≤ c → c ≤ 255 →
      0 ≤ GDX_dec_rolling_counter c ∧ GDX_dec_rolling_counter c ≤ 255) ∧
    GDX_dec_rolling_counter 0 = 255 ∧
    (∀ (command : List Int) (counter : Int),
      (GDX_build_frame command counter).2 = GDX_dec_rolling_counter counter) := by
  refine ⟨fun c => rfl, iterate_dec_countdown, ?_, ?_, by decide, fun command counter => rfl⟩
  · show iterate_dec (255 + 1) 255 = 255
    rw [iterate_dec_succ, iterate_dec_countdown 255 (by norm_num)]
    decide
  · intro c h0 h1
    simp only [GDX_dec_rolling_counter, beq_iff_eq]
    split_ifs with hc <;> omega

/-- Witness for C5 at concrete inputs: ten builds take the counter from 255
to 245, and a mid-range value stays within the unsigned byte range. -/
theorem rolling_counter_claim_witness :
    iterate_dec 10 255 = 245 ∧
    0 ≤ GDX_dec_rolling_counter 17 ∧ GDX_dec_rolling_counter 17 ≤ 255 :=
  ⟨by rw [rolling_counter_claim.2.1 10 (by norm_num)]; norm_num,
   (rolling_counter_claim.2.2.2.1 17 (by norm_num) (by norm_num)).1,
   (rolling_counter_claim.2.2.2.1 17 (by norm_num) (by norm_num)).2⟩

/-- The code's truthiness test `testMask & defaultMask & availableMask`
holds exactly when both masks have bit `k` set. -/
theorem shift_and_and_ne_zero (a d k : Nat) :
    (1 <<< k) &&& d &&& a ≠ 0 ↔ (d.testBit k ∧ a.testBit k) := by
  rw [Nat.one_shiftLeft, Nat.two_pow_and]
  cases hd : d.testBit k with
  | false => simp
  | true =>
    simp only [Bool.toNat_true, mul_one, true_and]
    rw [Nat.two_pow_and]
    cases ha : a.testBit k with
    | false => simp
    | true => simp [pow_ne_zero]

/-- An exhausted scan: no bit position in `i..31` is set in both masks. -/
theorem find_default_from_none (a d : Nat) :
    ∀ (n i : Nat), i + n = 32 →
      (∀ k, i ≤ k → k < 32 → (1 <<< k) &&& d &&& a = 0) →
      find_default_sensor_from a d i = none := by
  intro n
  induction n with
  | zero =>
    intro i hi _
    unfold find_default_sensor_from
    rw [dif_neg (by omega)]
  | succ m ih =>
    intro i hi h
    unfold find_default_sensor_from
    rw [dif_pos (by omega), if_neg (fun hc => hc (h i (le_refl i) (by omega)))]
    exact ih (i + 1) (by omega) (fun k hk1 hk2 => h k (by omega) hk2)

/-- A successful scan stops at the first common bit at or after `i`. -/
theorem find_default_from_some (a d j : Nat) (hj : j < 32)
    (hbit : (1 <<< j) &&& d &&& a ≠ 0) :
    ∀ (n i : Nat), i + n = 32 → i ≤ j →
      (∀ k, i ≤ k → k < j → (1 <<< k) &&& d &&& a = 0) →
      find_default_sensor_from a d i = some j := by
  intro n
  induction n with
  | zero => intro i h1 h2 _; omega
  | succ m ih =>
    intro i h1 h2 h3
    unfold find_default_sensor_from
    rw [dif_pos (by omega)]
    by_cases hij : i = j
    · subst hij
      rw [if_pos hbit]
    · rw [if_neg (fun hc => hc (h3 i (le_refl i) (by omega)))]
      exact ih (i + 1) (by omega) (by omega) (fun k hk1 hk2 => h3 k (by omega) hk2)

/-- Enabling a number that no registry entry carries changes nothing. -/
theorem enable_one_sensor_not_present (t : Registry) (j : Nat)
    (h : j ∉ t.map (fun s => s.sensor_number)) :
    enable_one_sensor t j = t := by
  induction t with
  | nil => rfl
  | cons x xs ih =>
    simp only [List.map_cons, List.mem_cons] at h
    push_neg at h
    simp only [enable_one_sensor, List.map_cons]
    rw [if_neg (by simpa using fun he => h.1 he.symm)]
    have := ih (by simpa using h.2)
    simpa [enable_one_sensor] using this

/-- On an all-disabled registry with unique numbers, enabling number `j`
leaves exactly one enabled sensor, numbered `j`. -/
theorem enable_one_all_disabled (reg : Registry) (j : Nat)
    (hdis : ∀ s ∈ reg, s.enabled = false)
    (hnodup : (reg.map (fun s => s.sensor_number)).Nodup)
    (hpres : j ∈ reg.map (fun s => s.sensor_number)) :
    ∃ s, get_enabled_sensors (enable_one_sensor reg j) = [s] ∧
      s.sensor_number = j := by
  induction reg with
  | nil => simp at hpres
  | cons x xs ih =>
    simp only [List.map_cons, List.nodup_cons] at hnodup
    by_cases hx : x.sensor_number = j
    · refine ⟨{ x with enabled := true, values := [] }, ?_, hx⟩
      have hrest : enable_one_sensor xs j = xs :=
        enable_one_sensor_not_present xs j (by rw [← hx]; exact hnodup.1)
      have hxsnil : xs.filter (fun s => s.enabled) = [] := by
        rw [List.filter_eq_nil_iff]
        intro s hs
        simp [hdis s (List.mem_cons_of_mem _ hs)]
      have hrest2 : (xs.map fun s =>
          if s.sensor_number == j then { s with enabled := true, values := [] }
          else s) = xs := hrest
      have hcons : enable_one_sensor (x :: xs) j =
          { x with enabled := true, values := [] } :: xs := by
        unfold enable_one_sensor
        rw [List.map_cons, if_pos (by simpa using hx), hrest2]
      rw [hcons]
      unfold get_enabled_sensors
      rw [List.filter_cons_of_pos (by simp), hxsnil]
    · have hxd : x.enabled = false := hdis x (List.mem_cons_self _ _)
      have hpres2 : j ∈ xs.map (fun s => s.sensor_number) := by
        rcases List.mem_cons.mp hpres with h1 | h2
        · exact absurd h1.symm hx
        · exact h2
      obtain ⟨s, hs1, hs2⟩ := ih (fun s hs => hdis s (List.mem_cons_of_mem _ hs))
        hnodup.2 hpres2
      refine ⟨s, ?_, hs2⟩
      have hcons : enable_one_sensor (x :: xs) j = x :: enable_one_sensor xs j := by
        unfold enable_one_sensor
        rw [List.map_cons, if_neg (by simpa using hx)]
      rw [hcons]
      unfold get_enabled_sensors
      rw [List.filter_cons_of_neg (by simp [hxd])]
      exact hs1

/-- The exclusion pass on a registry with a single enabled sensor is the
identity: the only snapshot pair is the sensor with itself. -/
theorem check_single (reg : Registry) (s : GoDirectSensor)
    (h : get_enabled_sensors reg = [s]) :
    check_mutual_exclusion_masks reg = reg := by
  unfold check_mutual_exclusion_masks
  rw [h]
  simp [GoDirectSensor.check_mutual_exclusion_mask]

/-- Claim C4: for non-zero 32-bit available/default masks sharing a bit,
`enable_default_sensors` selects exactly the lowest bit position set in both
masks, and (on a registry with unique numbers, the chosen sensor present and
nothing yet enabled) enables only that single sensor — not the full default
set.  The common bit `j` with all lower positions not common is the lowest
common set bit. -/
theorem enable_default_lowest_common (reg : Registry) (a d j : Nat)
    (hj : j < 32)
    (hbitj : a.testBit j ∧ d.testBit j)
    (hleast : ∀ k, k < j → ¬(a.testBit k ∧ d.testBit k))
    (hdisabled : ∀ s ∈ reg, s.enabled = false)
    (hnodup : (reg.map (fun s => s.sensor_number)).Nodup)
    (hpresent : j ∈ reg.map (fun s => s.sensor_number)) :
    find_default_sensor_from a d 0 = some j ∧
    ∃ reg2, enable_default_sensors reg a d = .ok reg2 ∧
      (get_enabled_sensors reg2).map (fun s => s.sensor_number) = [j] := by
  have hbit : (1 <<< j) &&& d &&& a ≠ 0 :=
    (shift_and_and_ne_zero a d j).mpr ⟨hbitj.2, hbitj.1⟩
  have hfind : find_default_sensor_from a d 0 = some j :=
    find_default_from_some a d j hj hbit 32 0 (by omega) (by omega)
      (fun k _ hk2 => by
        by_contra hc
        exact hleast k hk2 ⟨((shift_and_and_ne_zero a d k).mp hc).2,
          ((shift_and_and_ne_zero a d k).mp hc).1⟩)
  have ha : a ≠ 0 := fun h0 => by simp [h0] at hbitj
  have hd : d ≠ 0 := fun h0 => by simp [h0] at hbitj
  refine ⟨hfind, enable_sensors reg [j], ?_, ?_⟩
  · unfold enable_default_sensors
    rw [if_neg (by simp [ha, hd]), hfind]
    rw [if_neg (by simp; omega)]
  · obtain ⟨s, hs1, hs2⟩ := enable_one_all_disabled reg j hdisabled hnodup hpresent
    have hfold : enable_sensors reg [j] =
        check_mutual_exclusion_masks (enable_one_sensor reg j) := rfl
    rw [hfold, check_single _ s hs1, hs1, List.map_cons, hs2, List.map_nil]

/-- Witness for C4 at the spec example: available mask 0b1010, default mask
0b1000, a two-sensor registry; sensor 3 alone ends enabled. -/
theorem enable_default_lowest_common_witness :
    find_default_sensor_from 10 8 0 = some 3 ∧
    ∃ reg2,
      enable_default_sensors
        [⟨1, 0, 1000, false, []⟩, ⟨3, 0, 1000, false, []⟩] 10 8 = .ok reg2 ∧
      (get_enabled_sensors reg2).map (fun s => s.sensor_number) = [3] :=
  enable_default_lowest_common [⟨1, 0, 1000, false, []⟩, ⟨3, 0, 1000, false, []⟩]
    10 8 3 (by norm_num) (by decide)
    (fun k hk => by interval_cases k <;> decide)
    (by decide) (by decide) (by decide)

/-- Claim C10: for non-zero masks with no common set bit, the scan loop
finishes with loop variable 31, so the `i == 32` guard cannot fire and
`enable_default_sensors` does not return a clean `False`; the following read
of the never-assigned local `sensorNumbers` raises `NameError`. -/
theorem enable_default_unbound_local (reg : Registry) (a d : Nat)
    (ha : a ≠ 0) (hd : d ≠ 0)
    (hnc : ∀ k, k < 32 → ¬(a.testBit k ∧ d.testBit k)) :
    enable_default_sensors reg a d = .nameError ∧
    enable_default_sensors reg a d ≠ .returnedFalse := by
  have hfind : find_default_sensor_from a d 0 = none :=
    find_default_from_none a d 32 0 (by omega) (fun k _ hk2 => by
      by_contra hc
      exact hnc k hk2 ⟨((shift_and_and_ne_zero a d k).mp hc).2,
        ((shift_and_and_ne_zero a d k).mp hc).1⟩)
  have hres : enable_default_sensors reg a d = .nameError := by
    unfold enable_default_sensors
    rw [if_neg (by simp [ha, hd]), hfind]
    simp
  exact ⟨hres, by rw [hres]; intro hcontra; cases hcontra⟩

/-- Witness for C10 at masks 1 and 2 (bit 0 vs bit 1, disjoint): the call
ends in `NameError`, not a boolean failure. -/
theorem enable_default_unbound_local_witness :
    enable_default_sensors [] 1 2 = .nameError ∧
    enable_default_sensors [] 1 2 ≠ .returnedFalse :=
  enable_default_unbound_local [] 1 2 (by norm_num) (by norm_num)
    (fun k hk => by interval_cases k <;> decide)

/-- Counterexample to claim C3 as stated: sensors 0 and 1 whose
mutual-exclusion masks each contain the other's bit.  Enabling 1 and then 0
runs the exclusion pass over the snapshot [0, 1]; sensor 0 disables sensor
1, but sensor 1 — still in the snapshot — then disables sensor 0, leaving
zero (not exactly one) of the pair enabled. -/
theorem mutual_exclusion_cex :
    (get_enabled_sensors (enable_sensors
      (enable_sensors [⟨0, 2, 0, false, []⟩, ⟨1, 1, 0, false, []⟩] [1])
      [0])).length = 0 ∧
    ¬((get_enabled_sensors (enable_sensors
      (enable_sensors [⟨0, 2, 0, false, []⟩, ⟨1, 1, 0, false, []⟩] [1])
      [0])).length = 1) := by
  decide

/-- Claim C3, amended: with sensor B enabled and sensor A then enabled,
where A's mutual-exclusion mask has B's bit set AND B's mask does not have
A's bit set, the exclusion pass leaves exactly one of the pair enabled (B
forced off), and repeating the enable call does not change the result.
(When the masks exclude each other symmetrically, both sensors end up
disabled — see the counterexample.) -/
theorem mutual_exclusion_amended (a b mA mB tA tB : Nat)
    (hne : a ≠ b)
    (hAB : (1 <<< b) &&& mA = 1 <<< b)
    (hBA : (1 <<< a) &&& mB ≠ 1 <<< a) :
    enable_sensors (enable_sensors
        [⟨b, mB, tB, false, []⟩, ⟨a, mA, tA, false, []⟩] [b]) [a] =
      [⟨b, mB, tB, false, []⟩, ⟨a, mA, tA, true, []⟩] ∧
    enable_sensors [⟨b, mB, tB, false, []⟩, ⟨a, mA, tA, true, []⟩] [a] =
      [⟨b, mB, tB, false, []⟩, ⟨a, mA, tA, true, []⟩] := by
  have hab : (a == b) = false := by simp [hne]
  have hba : (b == a) = false := by simp [Ne.symm hne]
  have hABb : ((1 <<< b) &&& mA == 1 <<< b) = true := by simp [hAB]
  have hBAb : ((1 <<< a) &&& mB == 1 <<< a) = false := by simp [hBA]
  have hba' : b ≠ a := Ne.symm hne
  constructor <;>
    simp [enable_sensors, enable_one_sensor, check_mutual_exclusion_masks,
      get_enabled_sensors, disable_sensor, GoDirectSensor.check_mutual_exclusion_mask,
      List.filter_cons, hab, hba, hABb, hBAb, hne, hba', hAB, hBA]

/-- Witness for the amended C3 with sensors 0 (mask 2, excludes 1) and
1 (mask 0): sensor 0 stays enabled, sensor 1 is forced off, idempotently. -/
theorem mutual_exclusion_amended_witness :
    enable_sensors (enable_sensors
        [⟨1, 0, 0, false, []⟩, ⟨0, 2, 0, false, []⟩] [1]) [0] =
      [⟨1, 0, 0, false, []⟩, ⟨0, 2, 0, true, []⟩] ∧
    enable_sensors [⟨1, 0, 0, false, []⟩, ⟨0, 2, 0, true, []⟩] [0] =
      [⟨1, 0, 0, false, []⟩, ⟨0, 2, 0, true, []⟩] :=
  mutual_exclusion_amended 0 1 2 0 0 0 (by norm_num) (by decide) (by decide)

/-- Counterexample to claim C7 as stated: a session holding one enabled
sensor with a logged sample and period 100000 ms.  `start` with period 1000
whose set-measurement-period exchange times out (no inbound traffic)
returns failure, yet the configured sampling period has become 1000 and the
sensor's sample log has been cleared — both were mutated before the failing
exchange. -/
theorem start_failure_cex :
    start ⟨255, 100000, [⟨2, 0, 1000, true, [42]⟩]⟩ (some 1000) 0 0
        true [] true [] =
      some (false, ⟨254, 1000, [⟨2, 0, 1000, true, []⟩]⟩) ∧
    ¬((1000 : Nat) = 100000) ∧ ¬(([] : List Int) = [42]) := by
  decide

/-- Claim C7, amended: for a session with at least one enabled sensor and
an explicit period, a failed `start` returns `False`; besides the rolling
sequence counter (advanced once per attempted exchange), the configured
sampling period is set to the requested period and every sample log is
cleared before the first exchange — and the resulting registry is exactly
what the dispatcher's wait loop left behind on the cleared registry, since
streaming frames interleaved into the failing exchanges are decoded and may
append samples to the just-cleared logs; nothing else of the session
differs.  A decode exception inside the exchange propagates instead of a
`False` return (third conjunct). -/
theorem start_failure_amended :
    (∀ (s : Session) (p am dm : Nat) (w1 : Bool) (ev1 : List (Int × Bytes))
        (w2 : Bool) (ev2 : List (Int × Bytes)) (reg1 : Registry) (b1 : Int),
      (get_enabled_sensors s.sensors).length ≠ 0 →
      GDX_write_and_check_response w1 (clear_all s.sensors) ev1 =
        some (false, reg1, b1) →
      start s (some p) am dm w1 ev1 w2 ev2 =
        some (false,
          { rolling_counter := GDX_dec_rolling_counter s.rolling_counter,
            sample_period_in_milliseconds := p,
            sensors := reg1 })) ∧
    (∀ (s : Session) (p am dm : Nat) (w1 : Bool) (ev1 : List (Int × Bytes))
        (w2 : Bool) (ev2 : List (Int × Bytes)) (reg1 reg2 : Registry) (b1 b2 : Int),
      (get_enabled_sensors s.sensors).length ≠ 0 →
      GDX_write_and_check_response w1 (clear_all s.sensors) ev1 =
        some (true, reg1, b1) →
      GDX_write_and_check_response w2 reg1 ev2 = some (false, reg2, b2) →
      start s (some p) am dm w1 ev1 w2 ev2 =
        some (false,
          { rolling_counter :=
              GDX_dec_rolling_counter (GDX_dec_rolling_counter s.rolling_counter),
            sample_period_in_milliseconds := p,
            sensors := reg2 })) ∧
    (∀ (s : Session) (p am dm : Nat) (w1 : Bool) (ev1 : List (Int × Bytes))
        (w2 : Bool) (ev2 : List (Int × Bytes)),
      (get_enabled_sensors s.sensors).length ≠ 0 →
      GDX_write_and_check_response w1 (clear_all s.sensors) ev1 = none →
      start s (some p) am dm w1 ev1 w2 ev2 = none) := by
  refine ⟨?_, ?_, ?_⟩
  · intro s p am dm w1 ev1 w2 ev2 reg1 b1 hen hch1
    have hb : ((get_enabled_sensors s.sensors).length == 0) = false := by
      simp [hen]
    simp [start, GDX_set_measurement_period, GDX_build_frame, hb, hch1]
  · intro s p am dm w1 ev1 w2 ev2 reg1 reg2 b1 b2 hen hch1 hch2
    have hb : ((get_enabled_sensors s.sensors).length == 0) = false := by
      simp [hen]
    simp [start, GDX_set_measurement_period, GDX_start_measurements,
      GDX_build_frame, hb, hch1, hch2]
  · intro s p am dm w1 ev1 w2 ev2 hen hch1
    have hb : ((get_enabled_sensors s.sensors).length == 0) = false := by
      simp [hen]
    simp [start, GDX_set_measurement_period, GDX_build_frame, hb, hch1]

/-- Witness for the amended C7 at a concrete session: one streaming frame
(sensor 2, one sample, word 9) is interleaved into the timing-out set
exchange, so the failed start returns `False` with the period stored, the
counter advanced once, and the cleared log of sensor 2 holding the
mid-exchange sample 9. -/
theorem start_failure_amended_witness :
    start ⟨255, 100000, [⟨2, 0, 1000, true, [7]⟩]⟩ (some 1000) 0 0
        true [(10, [0x20, 0, 0, 0, 0x06, 0x04, 0, 1, 0, 9, 0, 0, 0])] true [] =
      some (false, ⟨254, 1000, [⟨2, 0, 1000, true, [9]⟩]⟩) := by
  rw [start_failure_amended.1 ⟨255, 100000, [⟨2, 0, 1000, true, [7]⟩]⟩ 1000 0 0
    true [(10, [0x20, 0, 0, 0, 0x06, 0x04, 0, 1, 0, 9, 0, 0, 0])] true []
    [⟨2, 0, 1000, true, [9]⟩] 4990 (by decide) (by decide)]
  decide

/-- A run of only skippable frames is consumed whole and the read reports a
timeout failure with the registry untouched. -/
theorem read_meas_skip_all (reg : Registry) (T : Int) (events : List (Int × Bytes))
    (h : ∀ e ∈ events, skippable_frame e.2 = true) :
    GDX_read_measurement reg T events = some (false, reg) := by
  induction events generalizing T with
  | nil => rfl
  | cons e rest ih =>
    obtain ⟨t, f⟩ := e
    have hf : skippable_frame f = true := h _ (List.mem_cons_self _ _)
    have hrest : ∀ e ∈ rest, skippable_frame e.2 = true :=
      fun e he => h e (List.mem_cons_of_mem _ he)
    show GDX_read_measurement_loop reg T ((t, f) :: rest) = some (false, reg)
    unfold GDX_read_measurement_loop
    by_cases hb : T - t < 1
    · rw [if_pos hb]
    · rw [if_neg hb]
      by_cases h1 : f.length < 5
      · rw [if_pos h1]
        exact ih (T - t) hrest
      · rw [if_neg h1]
        by_cases h2 : (f.getD 0 0 != 0x20) = true
        · rw [if_pos h2]
          exact ih (T - t) hrest
        · rw [if_neg h2]
          have hd1 : decide (f.length < 5) = false := by simpa using h1
          have hd2 : (f.getD 0 0 != 0x20) = false := by
            simpa using h2
          unfold skippable_frame at hf
          rw [hd1, hd2] at hf
          simp only [Bool.false_or] at hf
          rw [if_pos hf]
          exact ih (T - t) hrest

/-- With enough budget, the read consumes a skippable prefix and returns the
measurement handler's result on the first non-skippable frame, later frames
unread. -/
theorem read_meas_first_supported (reg : Registry) (T : Int)
    (pre : List (Int × Bytes)) (t : Int) (f : Bytes) (rest : List (Int × Bytes))
    (hpre : ∀ e ∈ pre, skippable_frame e.2 = true)
    (hf : skippable_frame f = false)
    (hbudget : ∀ n, 1 ≤ n → n ≤ pre.length + 1 →
      1 ≤ T - (((pre ++ [(t, f)]).take n).map Prod.fst).sum) :
    GDX_read_measurement reg T (pre ++ (t, f) :: rest) =
      GDX_handle_measurement f reg := by
  induction pre generalizing T with
  | nil =>
    have hb1 := hbudget 1 (by omega) (by omega)
    simp only [List.nil_append, List.take_succ_cons, List.take_zero, List.map_cons,
      List.map_nil, List.sum_cons, List.sum_nil, add_zero] at hb1
    show GDX_read_measurement_loop reg T ((t, f) :: rest) = GDX_handle_measurement f reg
    unfold GDX_read_measurement_loop
    rw [if_neg (by omega)]
    unfold skippable_frame at hf
    simp only [Bool.or_eq_false_iff, decide_eq_false_iff_not, bne_eq_false_iff_eq,
      beq_eq_false_iff_ne, ne_eq] at hf
    rw [if_neg hf.1.1]
    have h2 : (f.getD 0 0 != 0x20) = false := by
      simp only [bne_eq_false_iff_eq]
      exact hf.1.2
    rw [h2]
    have h3 : (f.getD 4 0 == 0x0c || f.getD 4 0 == 0x0d || f.getD 4 0 == 0x0e)
        = false := by
      simp only [Bool.or_eq_false_iff, beq_eq_false_iff_ne, ne_eq]
      exact ⟨⟨hf.2.1.1, hf.2.1.2⟩, hf.2.2⟩
    rw [h3]
    simp
  | cons e pre' ih =>
    obtain ⟨te, fe⟩ := e
    have hfe : skippable_frame fe = true := hpre _ (List.mem_cons_self _ _)
    have hpre' : ∀ x ∈ pre', skippable_frame x.2 = true :=
      fun x hx => hpre x (List.mem_cons_of_mem _ hx)
    have hb1 := hbudget 1 (by omega) (by omega)
    simp only [List.cons_append, List.take_succ_cons, List.take_zero, List.map_cons,
      List.map_nil, List.sum_cons, List.sum_nil, add_zero] at hb1
    have hbudget' : ∀ n, 1 ≤ n → n ≤ pre'.length + 1 →
        1 ≤ (T - te) - (((pre' ++ [(t, f)]).take n).map Prod.fst).sum := by
      intro n hn1 hn2
      have hstep := hbudget (n + 1) (by omega) (by simp only [List.length_cons]; omega)
      simp only [List.cons_append, List.take_succ_cons, List.map_cons, List.sum_cons] at hstep
      omega
    show GDX_read_measurement_loop reg T ((te, fe) :: (pre' ++ (t, f) :: rest)) =
      GDX_handle_measurement f reg
    unfold GDX_read_measurement_loop
    rw [if_neg (by omega)]
    by_cases h1 : fe.length < 5
    · rw [if_pos h1]
      exact ih (T - te) hpre' hbudget'
    · rw [if_neg h1]
      by_cases h2 : (fe.getD 0 0 != 0x20) = true
      · rw [if_pos h2]
        exact ih (T - te) hpre' hbudget'
      · rw [if_neg h2]
        have hd1 : decide (fe.length < 5) = false := by simpa using h1
        have hd2 : (fe.getD 0 0 != 0x20) = false := by simpa using h2
        unfold skippable_frame at hfe
        rw [hd1, hd2] at hfe
        simp only [Bool.false_or] at hfe
        rw [if_pos hfe]
        exact ih (T - te) hpre' hbudget'

/-- Claim C8: `read_measurement` consumes without surfacing every frame
shorter than 5 bytes, every frame whose first byte is not the streaming tag
0x20, and every streaming frame of sub-type start-time (0x0c), dropped
(0x0d) or period (0x0e); it returns only upon the first remaining frame
(whose decode result it returns) or upon timeout expiry, in which case it
returns failure (`some (false, _)`, never an exception) with the registry
untouched. -/
theorem read_measurement_claim :
    (∀ (reg : Registry) (T : Int) (events : List (Int × Bytes)),
      (∀ e ∈ events, skippable_frame e.2 = true) →
      GDX_read_measurement reg T events = some (false, reg)) ∧
    (∀ (reg : Registry) (T : Int) (pre : List (Int × Bytes)) (t : Int)
        (f : Bytes) (rest : List (Int × Bytes)),
      (∀ e ∈ pre, skippable_frame e.2 = true) →
      skippable_frame f = false →
      (∀ n, 1 ≤ n → n ≤ pre.length + 1 →
        1 ≤ T - (((pre ++ [(t, f)]).take n).map Prod.fst).sum) →
      GDX_read_measurement reg T (pre ++ (t, f) :: rest) =
        GDX_handle_measurement f reg) :=
  ⟨read_meas_skip_all, read_meas_first_supported⟩

/-- Witness for C8: a lone short frame yields the timeout failure, and a
short frame followed by a normal-real32 frame (empty mask, count 0) yields
the handler's successful decode. -/
theorem read_measurement_claim_witness :
    GDX_read_measurement [] 5000 [(10, [0])] = some (false, []) ∧
    GDX_read_measurement [] 5000
      [(10, [0]), (20, [0x20, 0, 0, 0, 0x06, 0, 0, 0, 0])] = some (true, []) := by
  constructor
  · exact read_measurement_claim.1 [] 5000 [(10, [0])] (by decide)
  · have h := read_measurement_claim.2 [] 5000 [(10, [0])] 20
      [0x20, 0, 0, 0, 0x06, 0, 0, 0, 0] [] (by decide) (by decide)
      (fun n h1 h2 => by
        simp only [List.length_cons, List.length_nil] at h2
        interval_cases n <;> decide)
    exact h.trans (by decide)

/-- Counterexample to claim C9 as stated: two short frames read at total
elapsed 1000 ms and 2000 ms, then a command reply available at 2600 ms.
The loop's remaining budget after the third iteration is
5000 − 1000 − 2000 − 2600 = −600 (the elapsed-since-write reading is
re-subtracted every iteration), not 5000 − 2600 = 2400, so the call times
out and returns `None` even though only 2600 ms of the 5000 ms budget had
actually elapsed when the reply arrived. -/
theorem dispatcher_budget_cex :
    GDX_write_and_get_response true [] [(1000, [0]), (2000, [0]), (2600, [0x10, 0])] =
      some (.returnedNone, [], -600) ∧
    ¬((-600 : Int) = 5000 - 2600) := by
  decide

/-- On short-frame traffic the get-response loop never raises and never
replies: it always ends in the `None` timeout result with the registry
untouched. -/
theorem get_loop_short_none (reg : Registry) (B : Int) (events : List (Int × Bytes))
    (h : ∀ e ∈ events, e.2.length < 2) :
    ∃ r, GDX_write_and_get_response_loop reg B events =
      some (.returnedNone, reg, r) := by
  induction events generalizing B with
  | nil => exact ⟨B, rfl⟩
  | cons e rest ih =>
    obtain ⟨t, f⟩ := e
    have hf : f.length < 2 := h _ (List.mem_cons_self _ _)
    show ∃ r, GDX_write_and_get_response_loop reg (B) ((t, f) :: rest) = _
    unfold GDX_write_and_get_response_loop
    by_cases hb : B - t < 1
    · rw [if_pos hb]
      exact ⟨B - t, rfl⟩
    · rw [if_neg hb, if_pos hf]
      exact ih (B - t) (fun e he => h e (List.mem_cons_of_mem _ he))

/-- Budget bookkeeping of the get-response loop: after consuming the whole
short-frame event list the remaining budget is the initial budget minus the
SUM of the per-iteration elapsed-since-write readings. -/
theorem get_loop_short_sum (reg : Registry) (B : Int) (events : List (Int × Bytes))
    (h : ∀ e ∈ events, e.2.length < 2)
    (hb : ∀ n, 1 ≤ n → n ≤ events.length →
      1 ≤ B - ((events.take n).map Prod.fst).sum) :
    GDX_write_and_get_response_loop reg B events =
      some (.returnedNone, reg, B - (events.map Prod.fst).sum) := by
  induction events generalizing B with
  | nil => simp [GDX_write_and_get_response_loop]
  | cons e rest ih =>
    obtain ⟨t, f⟩ := e
    have hf : f.length < 2 := h _ (List.mem_cons_self _ _)
    have hb1 := hb 1 (by omega) (by simp only [List.length_cons]; omega)
    simp only [List.take_succ_cons, List.take_zero, List.map_cons, List.map_nil,
      List.sum_cons, List.sum_nil, add_zero] at hb1
    have hb' : ∀ n, 1 ≤ n → n ≤ rest.length →
        1 ≤ (B - t) - ((rest.take n).map Prod.fst).sum := by
      intro n hn1 hn2
      have hstep := hb (n + 1) (by omega) (by simp only [List.length_cons]; omega)
      simp only [List.take_succ_cons, List.map_cons, List.sum_cons] at hstep
      omega
    show GDX_write_and_get_response_loop reg B ((t, f) :: rest) = _
    unfold GDX_write_and_get_response_loop
    rw [if_neg (by omega), if_pos hf]
    simp only [List.map_cons, List.sum_cons]
    rw [show B - (t + (rest.map Prod.fst).sum) = (B - t) - (rest.map Prod.fst).sum
      by ring]
    exact ih (B - t) (fun e he => h e (List.mem_cons_of_mem _ he)) hb'

/-- Short-frame traffic in the check-response loop: always the boolean
timeout failure, never an exception. -/
theorem check_loop_short_false (reg : Registry) (B : Int) (events : List (Int × Bytes))
    (h : ∀ e ∈ events, e.2.length < 2) :
    ∃ r, GDX_write_and_check_response_loop reg B events = some (false, reg, r) := by
  induction events generalizing B with
  | nil => exact ⟨B, rfl⟩
  | cons e rest ih =>
    obtain ⟨t, f⟩ := e
    have hf : f.length < 2 := h _ (List.mem_cons_self _ _)
    show ∃ r, GDX_write_and_check_response_loop reg (B) ((t, f) :: rest) = _
    unfold GDX_write_and_check_response_loop
    by_cases hb : B - t < 1
    · rw [if_pos hb]
      exact ⟨B - t, rfl⟩
    · rw [if_neg hb, if_pos hf]
      exact ih (B - t) (fun e he => h e (List.mem_cons_of_mem _ he))

/-- Budget bookkeeping of the check-response loop, as for the get variant. -/
theorem check_loop_short_sum (reg : Registry) (B : Int) (events : List (Int × Bytes))
    (h : ∀ e ∈ events, e.2.length < 2)
    (hb : ∀ n, 1 ≤ n → n ≤ events.length →
      1 ≤ B - ((events.take n).map Prod.fst).sum) :
    GDX_write_and_check_response_loop reg B events =
      some (false, reg, B - (events.map Prod.fst).sum) := by
  induction events generalizing B with
  | nil => simp [GDX_write_and_check_response_loop]
  | cons e rest ih =>
    obtain ⟨t, f⟩ := e
    have hf : f.length < 2 := h _ (List.mem_cons_self _ _)
    have hb1 := hb 1 (by omega) (by simp only [List.length_cons]; omega)
    simp only [List.take_succ_cons, List.take_zero, List.map_cons, List.map_nil,
      List.sum_cons, List.sum_nil, add_zero] at hb1
    have hb' : ∀ n, 1 ≤ n → n ≤ rest.length →
        1 ≤ (B - t) - ((rest.take n).map Prod.fst).sum := by
      intro n hn1 hn2
      have hstep := hb (n + 1) (by omega) (by simp only [List.length_cons]; omega)
      simp only [List.take_succ_cons, List.map_cons, List.sum_cons] at hstep
      omega
    show GDX_write_and_check_response_loop reg B ((t, f) :: rest) = _
    unfold GDX_write_and_check_response_loop
    rw [if_neg (by omega), if_pos hf]
    simp only [List.map_cons, List.sum_cons]
    rw [show B - (t + (rest.map Prod.fst).sum) = (B - t) - (rest.map Prod.fst).sum
      by ring]
    exact ih (B - t) (fun e he => h e (List.mem_cons_of_mem _ he)) hb'

/-- Claim C9, amended: in both dispatcher loops the remaining budget after
the k-th iteration equals the initial budget minus the SUM over iterations
1..k of the elapsed-since-write reading taken at each iteration — elapsed
time is re-subtracted every pass, over-counting it whenever more than one
iteration runs — and an exhausted budget makes the calls return the failure
values `None` (get) and `False` (check) rather than raising. -/
theorem dispatcher_budget_amended :
    (∀ (reg : Registry) (B : Int) (events : List (Int × Bytes)),
      (∀ e ∈ events, e.2.length < 2) →
      ∃ r, GDX_write_and_get_response_loop reg B events =
        some (.returnedNone, reg, r)) ∧
    (∀ (reg : Registry) (B : Int) (events : List (Int × Bytes)),
      (∀ e ∈ events, e.2.length < 2) →
      (∀ n, 1 ≤ n → n ≤ events.length →
        1 ≤ B - ((events.take n).map Prod.fst).sum) →
      GDX_write_and_get_response_loop reg B events =
        some (.returnedNone, reg, B - (events.map Prod.fst).sum)) ∧
    (∀ (reg : Registry) (B : Int) (events : List (Int × Bytes)),
      (∀ e ∈ events, e.2.length < 2) →
      ∃ r, GDX_write_and_check_response_loop reg B events =
        some (false, reg, r)) ∧
    (∀ (reg : Registry) (B : Int) (events : List (Int × Bytes)),
      (∀ e ∈ events, e.2.length < 2) →
      (∀ n, 1 ≤ n → n ≤ events.length →
        1 ≤ B - ((events.take n).map Prod.fst).sum) →
      GDX_write_and_check_response_loop reg B events =
        some (false, reg, B - (events.map Prod.fst).sum)) :=
  ⟨get_loop_short_none, get_loop_short_sum, check_loop_short_false,
    check_loop_short_sum⟩

/-- Witness for the amended C9: two short frames at elapsed readings 100 ms
and 200 ms leave budget 5000 − 100 − 200 = 4700 and the loops end in their
timeout failure values. -/
theorem dispatcher_budget_amended_witness :
    GDX_write_and_get_response_loop [] 5000 [(100, [0]), (200, [0])] =
      some (.returnedNone, [], 4700) ∧
    GDX_write_and_check_response_loop [] 5000 [(100, [0]), (200, [0])] =
      some (false, [], 4700) := by
  constructor
  · have h := dispatcher_budget_amended.2.1 [] 5000 [(100, [0]), (200, [0])]
      (by decide)
      (fun n h1 h2 => by
        simp only [List.length_cons, List.length_nil] at h2
        interval_cases n <;> decide)
    exact h.trans (by decide)
  · have h := dispatcher_budget_amended.2.2.2 [] 5000 [(100, [0]), (200, [0])]
      (by decide)
      (fun n h1 h2 => by
        simp only [List.length_cons, List.length_nil] at h2
        interval_cases n <;> decide)
    exact h.trans (by decide)

/-- Membership in the decoder's ascending bit scan. -/
theorem mem_mask_bit_numbers (m i : Nat) :
    i ∈ mask_bit_numbers m ↔ (i < 32 ∧ m.testBit i = true) := by
  have h2pos : 0 < 2 ^ i := pow_pos (by norm_num) i
  have hcond : ((1 <<< i) &&& m == 1 <<< i) = true ↔ m.testBit i = true := by
    rw [beq_iff_eq, Nat.one_shiftLeft, Nat.two_pow_and]
    cases h : m.testBit i with
    | true =>
      simp only [Bool.toNat_true, mul_one]
    | false =>
      simp only [Bool.toNat_false, mul_zero]
      exact iff_of_false (fun hh => (Nat.ne_of_gt h2pos) hh.symm) (by simp)
  unfold mask_bit_numbers
  rw [List.mem_filter, List.mem_range]
  constructor
  · rintro ⟨h1, h2⟩
    exact ⟨h1, hcond.mp h2⟩
  · rintro ⟨h1, h2⟩
    exact ⟨h1, hcond.mpr h2⟩

/-- Resolving a bit list fails as soon as one number is absent from the
registry (the KeyError of `self._sensors[i]`). -/
theorem lookup_all_none (reg : Registry) (ns : List Nat) (i : Nat)
    (hmem : i ∈ ns) (hnone : lookupSensor reg i = none) :
    lookup_all reg ns = none := by
  induction ns with
  | nil => simp at hmem
  | cons j rest ih =>
    unfold lookup_all
    rcases List.mem_cons.mp hmem with h1 | h2
    · subst h1
      rw [hnone]
    · cases hj : lookupSensor reg j with
      | none => rfl
      | some s =>
        rw [ih h2]

/-- Claim C6: a mask-based measurement frame (normal-real32 0x06 or
wide-real32 0x07) whose decoded mask has a set bit at a sensor number
absent from the registry makes the decoder fail with the propagated
KeyError (`none`) — the frame neither silently decodes (`some (true, _)`)
nor reports a plain unknown-type failure (`some (false, _)`); in
particular no sample is appended to any sensor. -/
theorem missing_sensor_decode_error :
    (∀ (reg : Registry) (r : Bytes) (b5 b6 vcb i : Nat),
      r.get? 4 = some 0x06 → r.get? 5 = some b5 → r.get? 6 = some b6 →
      r.get? 7 = some vcb → b5 < 256 → b6 < 256 →
      (le16 b5 b6).testBit i = true →
      lookupSensor reg i = none →
      GDX_handle_measurement r reg = none) ∧
    (∀ (reg : Registry) (r : Bytes) (b5 b6 b7 b8 vcb i : Nat),
      r.get? 4 = some 0x07 → r.get? 5 = some b5 → r.get? 6 = some b6 →
      r.get? 7 = some b7 → r.get? 8 = some b8 → r.get? 9 = some vcb →
      b5 < 256 → b6 < 256 →
      (le16 b5 b6).testBit i = true →
      lookupSensor reg i = none →
      GDX_handle_measurement r reg = none) := by
  constructor
  · intro reg r b5 b6 vcb i h4 h5 h6 h7 hb5 hb6 htb hlk
    have hi : i < 32 := by
      by_contra hge
      push_neg at hge
      have hlt : le16 b5 b6 < 2 ^ i := by
        calc le16 b5 b6 < 65536 := by unfold le16; omega
        _ = 2 ^ 16 := by norm_num
        _ ≤ 2 ^ i := Nat.pow_le_pow_right (by norm_num) (by omega)
      rw [Nat.testBit_eq_false_of_lt hlt] at htb
      cases htb
    have hsel : get_sensors_with_mask reg (le16 b5 b6) = none :=
      lookup_all_none reg _ i ((mem_mask_bit_numbers _ _).mpr ⟨hi, htb⟩) hlk
    simp only [List.get?_eq_getElem?] at h4 h5 h6 h7
    simp [GDX_handle_measurement, h4, h5, h6, h7, hsel]
  · intro reg r b5 b6 b7 b8 vcb i h4 h5 h6 h7 h8 h9 hb5 hb6 htb hlk
    have hi : i < 32 := by
      by_contra hge
      push_neg at hge
      have hlt : le16 b5 b6 < 2 ^ i := by
        calc le16 b5 b6 < 65536 := by unfold le16; omega
        _ = 2 ^ 16 := by norm_num
        _ ≤ 2 ^ i := Nat.pow_le_pow_right (by norm_num) (by omega)
      rw [Nat.testBit_eq_false_of_lt hlt] at htb
      cases htb
    have hsel : get_sensors_with_mask reg (le16 b5 b6) = none :=
      lookup_all_none reg _ i ((mem_mask_bit_numbers _ _).mpr ⟨hi, htb⟩) hlk
    simp only [List.get?_eq_getElem?] at h4 h5 h6 h7 h8 h9
    simp [GDX_handle_measurement, h4, h5, h6, h7, h8, h9, hsel]

/-- Witness for C6: mask 0b00100100 (sensors 2 and 5) against a registry
holding only sensor 2; the decode raises (`none`) instead of appending. -/
theorem missing_sensor_decode_error_witness :
    GDX_handle_measurement [0x20, 0, 0, 0, 0x06, 0x24, 0, 2, 0]
      [⟨2, 0, 1000, true, []⟩] = none :=
  missing_sensor_decode_error.1 [⟨2, 0, 1000, true, []⟩]
    [0x20, 0, 0, 0, 0x06, 0x24, 0, 2, 0] 0x24 0 2 5
    (by decide) (by decide) (by decide) (by decide) (by decide) (by decide)
    (by decide) (by decide)

/-- A successful registry lookup returns a sensor carrying the looked-up
number. -/
theorem lookupSensor_number (reg : Registry) (n : Nat) (s : GoDirectSensor)
    (h : lookupSensor reg n = some s) : s.sensor_number = n := by
  have := List.find?_some h
  simpa using this

/-- Lookup commutes with a registry map that preserves sensor numbers. -/
theorem lookupSensor_map (f : GoDirectSensor → GoDirectSensor)
    (hf : ∀ s, (f s).sensor_number = s.sensor_number) (reg : Registry) (n : Nat) :
    lookupSensor (reg.map f) n = (lookupSensor reg n).map f := by
  induction reg with
  | nil => rfl
  | cons x t ih =>
    unfold lookupSensor at *
    simp only [List.map_cons, List.find?_cons]
    rw [hf x]
    cases hx : (x.sensor_number == n) with
    | true => rfl
    | false => exact ih

/-- Appending a sample to sensor `m` leaves every other log unchanged. -/
theorem values_of_append_sample_ne (reg : Registry) (m : Nat) (v : Int) (n : Nat)
    (hnm : n ≠ m) :
    values_of (append_sample reg m v) n = values_of reg n := by
  unfold values_of append_sample
  rw [lookupSensor_map _ (fun s => by split <;> rfl)]
  cases h : lookupSensor reg n with
  | none => rfl
  | some s =>
    have hs := lookupSensor_number reg n s h
    simp only [Option.map_some']
    rw [if_neg (by simp [hs, hnm])]

/-- Appending a sample to a present sensor `m` appends to exactly its log. -/
theorem values_of_append_sample_eq (reg : Registry) (m : Nat) (v : Int)
    (s : GoDirectSensor) (h : lookupSensor reg m = some s) :
    values_of (append_sample reg m v) m = values_of reg m ++ [v] := by
  unfold values_of append_sample
  rw [lookupSensor_map _ (fun s => by split <;> rfl), h]
  have hs := lookupSensor_number reg m s h
  simp only [Option.map_some']
  rw [if_pos (by simp [hs])]

/-- `append_sample` preserves which sensor numbers are present. -/
theorem lookupSensor_append_sample_isSome (reg : Registry) (m : Nat) (v : Int)
    (n : Nat) :
    (lookupSensor (append_sample reg m v) n).isSome =
      (lookupSensor reg n).isSome := by
  unfold append_sample
  rw [lookupSensor_map _ (fun s => by split <;> rfl)]
  cases h : lookupSensor reg n <;> rfl

/-- A bit list whose numbers are all present resolves to a sensor list with
exactly those numbers, in order. -/
theorem lookup_all_some (reg : Registry) (ns : List Nat)
    (h : ∀ i ∈ ns, (lookupSensor reg i).isSome = true) :
    ∃ sel, lookup_all reg ns = some sel ∧
      sel.map (fun s => s.sensor_number) = ns := by
  induction ns with
  | nil => exact ⟨[], rfl, rfl⟩
  | cons j rest ih =>
    have hj : (lookupSensor reg j).isSome = true := h j (List.mem_cons_self _ _)
    obtain ⟨s, hs⟩ := Option.isSome_iff_exists.mp hj
    obtain ⟨sel, hsel, hmap⟩ := ih (fun i hi => h i (List.mem_cons_of_mem _ hi))
    refine ⟨s :: sel, ?_, ?_⟩
    · unfold lookup_all
      rw [hs, hsel]
    · simp [hmap, lookupSensor_number reg j s hs]

/-- The ascending bit scan has no duplicate sensor numbers. -/
theorem mask_bit_numbers_nodup (m : Nat) : (mask_bit_numbers m).Nodup :=
  (List.nodup_range 32).filter _

/-- A non-negative signed byte reads back as itself. -/
theorem sbyte_toNat (b : Nat) (h : b < 128) : (sbyte b).toNat = b := by
  simp [sbyte, h]

/-- One inner round of `_GDX_handle_measurement`: each resolved sensor, in
list order, receives one decoded 4-byte sample, the cursor advancing 4 per
sample; other logs and the set of present numbers are untouched. -/
theorem append_round_spec (isInt : Bool) (r : Bytes) (sel : List GoDirectSensor) :
    ∀ (reg : Registry) (idx : Nat),
      (∀ s ∈ sel, (lookupSensor reg s.sensor_number).isSome = true) →
      (sel.map (fun s => s.sensor_number)).Nodup →
      idx + 4 * sel.length ≤ r.length →
      ∃ reg2, append_round isInt r sel reg idx = some (reg2, idx + 4 * sel.length) ∧
        (∀ n, n ∉ sel.map (fun s => s.sensor_number) →
          values_of reg2 n = values_of reg n) ∧
        (∀ j, ∀ hj : j < sel.length,
          values_of reg2 (sel.get ⟨j, hj⟩).sensor_number =
            values_of reg (sel.get ⟨j, hj⟩).sensor_number ++
              [decode_sample isInt r (idx + 4 * j)]) ∧
        (∀ n, (lookupSensor reg2 n).isSome = (lookupSensor reg n).isSome) := by
  induction sel with
  | nil =>
    intro reg idx hpres hnodup hbound
    refine ⟨reg, by simp [append_round], fun n _ => rfl,
      fun j hj => absurd hj (by simp), fun n => rfl⟩
  | cons s0 rest ih =>
    intro reg idx hpres hnodup hbound
    have hs0 : (lookupSensor reg s0.sensor_number).isSome = true :=
      hpres s0 (List.mem_cons_self _ _)
    obtain ⟨sobj, hsobj⟩ := Option.isSome_iff_exists.mp hs0
    have hsample : sample_at isInt r idx = some (decode_sample isInt r idx) := by
      unfold sample_at
      rw [if_pos (by simp only [List.length_cons] at hbound; omega)]
    have hnodup2 : (s0.sensor_number :: rest.map (fun s => s.sensor_number)).Nodup := by
      simpa using hnodup
    have hnodup0 : s0.sensor_number ∉ rest.map (fun s => s.sensor_number) :=
      (List.nodup_cons.mp hnodup2).1
    have hnodup' : (rest.map (fun s => s.sensor_number)).Nodup :=
      (List.nodup_cons.mp hnodup2).2
    have hpres' : ∀ s ∈ rest,
        (lookupSensor (append_sample reg s0.sensor_number
          (decode_sample isInt r idx)) s.sensor_number).isSome = true := by
      intro s hs
      rw [lookupSensor_append_sample_isSome]
      exact hpres s (List.mem_cons_of_mem _ hs)
    have hbound' : (idx + 4) + 4 * rest.length ≤ r.length := by
      simp only [List.length_cons] at hbound
      omega
    obtain ⟨reg2, hrun, hother, hsel_j, hpres2⟩ :=
      ih (append_sample reg s0.sensor_number (decode_sample isInt r idx))
        (idx + 4) hpres' hnodup' hbound'
    refine ⟨reg2, ?_, ?_, ?_, ?_⟩
    · have harith : idx + 4 * (s0 :: rest).length = idx + 4 + 4 * rest.length := by
        simp only [List.length_cons]
        ring
      rw [harith]
      show append_round isInt r (s0 :: rest) reg idx =
        some (reg2, idx + 4 + 4 * rest.length)
      unfold append_round
      rw [hsample]
      exact hrun
    · intro n hn
      simp only [List.map_cons, List.mem_cons, not_or] at hn
      rw [hother n hn.2, values_of_append_sample_ne _ _ _ _ hn.1]
    · intro j hj
      cases j with
      | zero =>
        have hget : ((s0 :: rest).get ⟨0, hj⟩) = s0 := rfl
        rw [hget, hother s0.sensor_number hnodup0,
          values_of_append_sample_eq reg s0.sensor_number _ sobj hsobj]
        simp
      | succ j' =>
        have hj' : j' < rest.length := by simpa using hj
        have hget : ((s0 :: rest).get ⟨j' + 1, hj⟩) = rest.get ⟨j', hj'⟩ := rfl
        rw [hget]
        have hne : (rest.get ⟨j', hj'⟩).sensor_number ≠ s0.sensor_number := by
          intro he
          exact hnodup0 (he ▸ (List.mem_map_of_mem _ (rest.get_mem j' hj')))
        rw [hsel_j j' hj', values_of_append_sample_ne _ _ _ _ hne]
        congr 3
        ring
    · intro n
      rw [hpres2 n, lookupSensor_append_sample_isSome]

/-- The outer `while count < value_count` loop: `vc` rounds distribute
`vc` samples to each resolved sensor; the `j`-th sensor of the (ascending)
resolved list receives the samples at offsets `idx + 4*(k*m + j)` for
`k < vc` (`m` the number of resolved sensors) — the round-robin interleaving
with the cursor advancing 4 bytes per sample.  Unselected logs are
untouched. -/
theorem distribute_samples_spec (isInt : Bool) (r : Bytes)
    (sel : List GoDirectSensor)
    (hnodup : (sel.map (fun s => s.sensor_number)).Nodup) :
    ∀ (vc : Nat) (reg : Registry) (idx : Nat),
      (∀ s ∈ sel, (lookupSensor reg s.sensor_number).isSome = true) →
      idx + 4 * (vc * sel.length) ≤ r.length →
      ∃ regN, distribute_samples isInt r sel vc reg idx = some regN ∧
        (∀ n, n ∉ sel.map (fun s => s.sensor_number) →
          values_of regN n = values_of reg n) ∧
        (∀ j, ∀ hj : j < sel.length,
          values_of regN (sel.get ⟨j, hj⟩).sensor_number =
            values_of reg (sel.get ⟨j, hj⟩).sensor_number ++
              (List.range vc).map (fun k =>
                decode_sample isInt r (idx + 4 * (k * sel.length + j)))) ∧
        (∀ n, (lookupSensor regN n).isSome = (lookupSensor reg n).isSome) := by
  intro vc
  induction vc with
  | zero =>
    intro reg idx hpres hbound
    refine ⟨reg, by simp [distribute_samples], fun n _ => rfl, ?_, fun n => rfl⟩
    intro j hj
    simp
  | succ m ih =>
    intro reg idx hpres hbound
    have hb1 : idx + 4 * sel.length ≤ r.length := by
      have h1 : sel.length ≤ (m + 1) * sel.length :=
        Nat.le_mul_of_pos_left _ (by omega)
      have h2 : 4 * sel.length ≤ 4 * ((m + 1) * sel.length) :=
        Nat.mul_le_mul_left 4 h1
      omega
    obtain ⟨reg2, hrun, hother, hsel_j, hpres2⟩ :=
      append_round_spec isInt r sel reg idx hpres hnodup hb1
    have hpres' : ∀ s ∈ sel, (lookupSensor reg2 s.sensor_number).isSome = true := by
      intro s hs
      rw [hpres2]
      exact hpres s hs
    have hb2 : (idx + 4 * sel.length) + 4 * (m * sel.length) ≤ r.length := by
      have hsplit : 4 * ((m + 1) * sel.length) =
          4 * sel.length + 4 * (m * sel.length) := by ring
      omega
    obtain ⟨regN, hrunN, hotherN, hsel_jN, hpresN⟩ :=
      ih reg2 (idx + 4 * sel.length) hpres' hb2
    refine ⟨regN, ?_, ?_, ?_, ?_⟩
    · show distribute_samples isInt r sel (m + 1) reg idx = some regN
      unfold distribute_samples
      rw [hrun]
      exact hrunN
    · intro n hn
      rw [hotherN n hn, hother n hn]
    · intro j hj
      rw [hsel_jN j hj, hsel_j j hj, List.append_assoc, List.singleton_append,
        List.range_succ_eq_map, List.map_cons, List.map_map]
      congr 2
      · congr 1
        ring
      · apply List.map_congr_left
        intro k _
        simp only [Function.comp, Nat.succ_eq_add_one]
        congr 1
        ring
    · intro n
      rw [hpresN n, hpres2 n]

/-- Claim C1: decoding a mask-based measurement frame (normal-real32 0x06,
payload at offset 9, or wide-real32 0x07, payload at offset 11) whose mask
resolves entirely inside the registry appends, for `value_count`
repetitions, one 4-byte decoded sample to each selected sensor in ascending
sensor-number order (`sel` lists the resolved sensors; its numbers are
exactly the ascending bit scan of the mask), the cursor advancing 4 bytes
per sample: the `j`-th selected sensor receives the samples at offsets
`idx0 + 4*(k*m + j)`, `k < value_count` — the round-robin interleaving.
Logs of unselected sensors are untouched. -/
theorem mask_distribution_claim :
    (∀ (reg : Registry) (r : Bytes) (b5 b6 vcb : Nat),
      r.get? 4 = some 0x06 → r.get? 5 = some b5 → r.get? 6 = some b6 →
      r.get? 7 = some vcb → vcb < 128 →
      (∀ i ∈ mask_bit_numbers (le16 b5 b6), (lookupSensor reg i).isSome = true) →
      9 + 4 * (vcb * (mask_bit_numbers (le16 b5 b6)).length) ≤ r.length →
      ∃ (sel : List GoDirectSensor) (reg2 : Registry),
        GDX_handle_measurement r reg = some (true, reg2) ∧
        sel.map (fun s => s.sensor_number) = mask_bit_numbers (le16 b5 b6) ∧
        (∀ n, n ∉ mask_bit_numbers (le16 b5 b6) →
          values_of reg2 n = values_of reg n) ∧
        (∀ j, ∀ hj : j < sel.length,
          values_of reg2 (sel.get ⟨j, hj⟩).sensor_number =
            values_of reg (sel.get ⟨j, hj⟩).sensor_number ++
              (List.range vcb).map (fun k =>
                decode_sample false r (9 + 4 * (k * sel.length + j))))) ∧
    (∀ (reg : Registry) (r : Bytes) (b5 b6 b7 b8 vcb : Nat),
      r.get? 4 = some 0x07 → r.get? 5 = some b5 → r.get? 6 = some b6 →
      r.get? 7 = some b7 → r.get? 8 = some b8 → r.get? 9 = some vcb →
      vcb < 128 →
      (∀ i ∈ mask_bit_numbers (le16 b5 b6), (lookupSensor reg i).isSome = true) →
      11 + 4 * (vcb * (mask_bit_numbers (le16 b5 b6)).length) ≤ r.length →
      ∃ (sel : List GoDirectSensor) (reg2 : Registry),
        GDX_handle_measurement r reg = some (true, reg2) ∧
        sel.map (fun s => s.sensor_number) = mask_bit_numbers (le16 b5 b6) ∧
        (∀ n, n ∉ mask_bit_numbers (le16 b5 b6) →
          values_of reg2 n = values_of reg n) ∧
        (∀ j, ∀ hj : j < sel.length,
          values_of reg2 (sel.get ⟨j, hj⟩).sensor_number =
            values_of reg (sel.get ⟨j, hj⟩).sensor_number ++
              (List.range vcb).map (fun k =>
                decode_sample false r (11 + 4 * (k * sel.length + j))))) := by
  constructor
  · intro reg r b5 b6 vcb h4 h5 h6 h7 hvc hpres hbound
    obtain ⟨sel, hsel, hmap⟩ := lookup_all_some reg _ hpres
    have hnodupsel : (sel.map (fun s => s.sensor_number)).Nodup := by
      rw [hmap]
      exact mask_bit_numbers_nodup _
    have hlen : sel.length = (mask_bit_numbers (le16 b5 b6)).length := by
      rw [← hmap, List.length_map]
    have hpres' : ∀ s ∈ sel, (lookupSensor reg s.sensor_number).isSome = true := by
      intro s hs
      exact hpres _ (hmap ▸ List.mem_map_of_mem _ hs)
    have hbound' : 9 + 4 * (vcb * sel.length) ≤ r.length := by
      rw [hlen]
      exact hbound
    obtain ⟨reg2, hrun, hother, hsel_j, _⟩ :=
      distribute_samples_spec false r sel hnodupsel vcb reg 9 hpres' hbound'
    refine ⟨sel, reg2, ?_, hmap, ?_, hsel_j⟩
    · simp only [List.get?_eq_getElem?] at h4 h5 h6 h7
      have hvct : (sbyte vcb).toNat = vcb := sbyte_toNat vcb hvc
      simp [GDX_handle_measurement, h4, h5, h6, h7, get_sensors_with_mask,
        hsel, hvct, hrun]
    · intro n hn
      exact hother n (by rw [hmap]; exact hn)
  · intro reg r b5 b6 b7 b8 vcb h4 h5 h6 h7 h8 h9 hvc hpres hbound
    obtain ⟨sel, hsel, hmap⟩ := lookup_all_some reg _ hpres
    have hnodupsel : (sel.map (fun s => s.sensor_number)).Nodup := by
      rw [hmap]
      exact mask_bit_numbers_nodup _
    have hlen : sel.length = (mask_bit_numbers (le16 b5 b6)).length := by
      rw [← hmap, List.length_map]
    have hpres' : ∀ s ∈ sel, (lookupSensor reg s.sensor_number).isSome = true := by
      intro s hs
      exact hpres _ (hmap ▸ List.mem_map_of_mem _ hs)
    have hbound' : 11 + 4 * (vcb * sel.length) ≤ r.length := by
      rw [hlen]
      exact hbound
    obtain ⟨reg2, hrun, hother, hsel_j, _⟩ :=
      distribute_samples_spec false r sel hnodupsel vcb reg 11 hpres' hbound'
    refine ⟨sel, reg2, ?_, hmap, ?_, hsel_j⟩
    · simp only [List.get?_eq_getElem?] at h4 h5 h6 h7 h8 h9
      have hvct : (sbyte vcb).toNat = vcb := sbyte_toNat vcb hvc
      simp [GDX_handle_measurement, h4, h5, h6, h7, h8, h9,
        get_sensors_with_mask, hsel, hvct, hrun]
    · intro n hn
      exact hother n (by rw [hmap]; exact hn)

/-- Witness for C1 at the spec example: mask 0b00100100 (sensors 2 and 5),
value_count 2, a normal-real32 frame carrying 8 interleaved samples (words
1..8).  Exactly 2 samples go to sensor 2 and 2 to sensor 5, in round-robin
order s2,s5,s2,s5: sensor 2 receives the words at offsets 9 and 17 (1 and
3), sensor 5 the words at offsets 13 and 21 (2 and 4). -/
theorem mask_distribution_claim_witness :
    (∃ (sel : List GoDirectSensor) (reg2 : Registry),
      GDX_handle_measurement
        [0x20, 0, 0, 0, 0x06, 0x24, 0, 2, 0,
         1, 0, 0, 0, 2, 0, 0, 0, 3, 0, 0, 0, 4, 0, 0, 0,
         5, 0, 0, 0, 6, 0, 0, 0, 7, 0, 0, 0, 8, 0, 0, 0]
        [⟨2, 0, 1000, true, []⟩, ⟨5, 0, 1000, true, []⟩] = some (true, reg2) ∧
      sel.map (fun s => s.sensor_number) = mask_bit_numbers (le16 0x24 0) ∧
      (∀ n, n ∉ mask_bit_numbers (le16 0x24 0) →
        values_of reg2 n =
          values_of [⟨2, 0, 1000, true, []⟩, ⟨5, 0, 1000, true, []⟩] n) ∧
      (∀ j, ∀ hj : j < sel.length,
        values_of reg2 (sel.get ⟨j, hj⟩).sensor_number =
          values_of [⟨2, 0, 1000, true, []⟩, ⟨5, 0, 1000, true, []⟩]
              (sel.get ⟨j, hj⟩).sensor_number ++
            (List.range 2).map (fun k =>
              decode_sample false
                [0x20, 0, 0, 0, 0x06, 0x24, 0, 2, 0,
                 1, 0, 0, 0, 2, 0, 0, 0, 3, 0, 0, 0, 4, 0, 0, 0,
                 5, 0, 0, 0, 6, 0, 0, 0, 7, 0, 0, 0, 8, 0, 0, 0]
                (9 + 4 * (k * sel.length + j))))) ∧
    GDX_handle_measurement
      [0x20, 0, 0, 0, 0x06, 0x24, 0, 2, 0,
       1, 0, 0, 0, 2, 0, 0, 0, 3, 0, 0, 0, 4, 0, 0, 0,
       5, 0, 0, 0, 6, 0, 0, 0, 7, 0, 0, 0, 8, 0, 0, 0]
      [⟨2, 0, 1000, true, []⟩, ⟨5, 0, 1000, true, []⟩] =
      some (true, [⟨2, 0, 1000, true, [1, 3]⟩, ⟨5, 0, 1000, true, [2, 4]⟩]) :=
  ⟨mask_distribution_claim.1 [⟨2, 0, 1000, true, []⟩, ⟨5, 0, 1000, true, []⟩]
      [0x20, 0, 0, 0, 0x06, 0x24, 0, 2, 0,
       1, 0, 0, 0, 2, 0, 0, 0, 3, 0, 0, 0, 4, 0, 0, 0,
       5, 0, 0, 0, 6, 0, 0, 0, 7, 0, 0, 0, 8, 0, 0, 0]
      0x24 0 2 (by decide) (by decide) (by decide) (by decide) (by decide)
      (by decide) (by decide),
   by decide⟩

end GoDirect
